import Mathlib

/-!
Shallow embedding of the `trouble` BLE host stack core (packet pool,
connection manager, GATT MTU exchange, host event loop routing), with
theorems checking the natural-language specification against the code.

Rust `usize` arithmetic that can panic (array indexing, `-=`/`-` underflow)
is modelled with `Option`: `Option.none` stands for a panic, `some v` for a
normal result.  `checked_sub(..).unwrap_or(0)` is total and is modelled by
truncated `Nat` subtraction.
-/

namespace Trouble

/-! ## Definitions: packet_pool.rs -/

/-- `Qos` from packet_pool.rs: quality of service policy for allocation. -/
inductive Qos where
  | fair
  | guaranteed (n : Nat)
  | none
deriving DecidableEq, Repr

/-- `AllocId::dynamic(idx)` from packet_pool.rs: `AllocId(2 + idx)`, with no
bound check against `CLIENTS`. -/
def allocIdDynamic (idx : Nat) : Nat := 2 + idx

/-- The mutable part of `State<MTU, N, CLIENTS>`: the per-buffer `free` flags
(`frees.length = N`) and the per-client usage counters
(`usage.length = CLIENTS`).  Buffer contents are irrelevant to the claims. -/
structure PoolState where
  frees : List Bool
  usage : List Nat
deriving DecidableEq, Repr

/-- `State::available(qos, client)`.  `Option.none` models a panic:
indexing `usage[client.0]` out of bounds, or the bare `usize` subtraction
`reserved - shortfall` underflowing in the `Guaranteed` arm.  The
`checked_sub(..).unwrap_or(0)` calls are truncated `Nat` subtraction. -/
def stateAvailable (N : Nat) (qos : Qos) (usage : List Nat) (client : Nat) : Option Nat :=
  match qos with
  | Qos.none => some (N - usage.sum)
  | Qos.fair =>
    match usage[client]? with
    | some u => some (N / usage.length - u)
    | Option.none => Option.none
  | Qos.guaranteed n =>
    match usage[client]? with
    | some u =>
      -- `reserved = n * usage.iter().filter(|c| **c == 0).count()`
      let reserved := n * (usage.filter (fun c => c == 0)).length
      let shortfall := if u < n then n - u else 0
      -- `reserved - shortfall` is a bare usize subtraction in the source
      if shortfall ≤ reserved then some (N - (reserved - shortfall + usage.sum))
      else Option.none
    | Option.none => Option.none

/-- First-fit search of `State::alloc`: index of the first buffer whose
`free` flag is set. -/
def allocFind (frees : List Bool) (idx : Nat) : Option Nat :=
  match frees with
  | [] => Option.none
  | f :: rest => if f then some idx else allocFind rest (idx + 1)

/-- `State::alloc(id)`.  Outer `Option` models a panic (`usage[id.0] += 1`
out of bounds); the inner `Option` is the source's `Option<PacketRef>`.
The source sets `packet.free = true` in the taken branch (packet_pool.rs
line 79), so the chosen buffer's flag is (re)written `true`, not cleared. -/
def stateAlloc (s : PoolState) (id : Nat) : Option (Option (Nat × PoolState)) :=
  match allocFind s.frees 0 with
  | Option.none => some Option.none
  | some idx =>
    match s.usage[id]? with
    | Option.none => Option.none
    | some u =>
      some (some (idx, { frees := s.frees.set idx true, usage := s.usage.set id (u + 1) }))

/-- `State::free(id, p_ref)`.  `Option.none` models a panic: indexing
`packets[p_ref.idx]` out of bounds, indexing `usage[id.0]` out of bounds,
or `usage[id.0] -= 1` underflowing. -/
def stateFree (s : PoolState) (id : Nat) (idx : Nat) : Option PoolState :=
  if idx < s.frees.length then
    match s.usage[id]? with
    | some u =>
      if u = 0 then Option.none
      else some { frees := s.frees.set idx true, usage := s.usage.set id (u - 1) }
    | Option.none => Option.none
  else Option.none

/-- `PacketPool::alloc(id)`: checks `state.available(qos, id)` and only then
calls `state.alloc(id)`.  Pool capacity `N` is the length of the flag
array. -/
def poolAlloc (qos : Qos) (s : PoolState) (id : Nat) : Option (Option (Nat × PoolState)) :=
  match stateAvailable s.frees.length qos s.usage id with
  | Option.none => Option.none
  | some avail =>
    if avail = 0 then some Option.none
    else stateAlloc s id

/-- A `Packet` handle: the allocating client id and the `p_ref` option that
`Drop` takes (`self.p_ref.take()`), so a dropped handle holds
`Option.none`. -/
structure LivePacket where
  client : Nat
  pRef : Option Nat
deriving DecidableEq, Repr

/-- Pool state plus every `Packet` handle ever produced (dropped handles
keep their slot with `pRef = Option.none`). -/
structure TraceState where
  pool : PoolState
  handles : List LivePacket
deriving DecidableEq, Repr

/-- One client-visible pool operation: a `PacketPool::alloc(id)` call, or a
drop of the `k`-th handle ever allocated. -/
inductive PoolOp where
  | alloc (id : Nat)
  | drop (k : Nat)
deriving DecidableEq, Repr

/-- Execute one operation.  `Option.none` models a panic.  A failed alloc
(`None` from the pool) leaves the state unchanged; dropping an
already-dropped handle is a no-op because `Drop for Packet` only frees when
`self.p_ref.take()` yields `Some`. -/
def execOp (qos : Qos) (s : TraceState) : PoolOp → Option TraceState
  | PoolOp.alloc id =>
    match poolAlloc qos s.pool id with
    | Option.none => Option.none
    | some Option.none => some s
    | some (some (idx, pool')) =>
      some { pool := pool', handles := s.handles ++ [⟨id, some idx⟩] }
  | PoolOp.drop k =>
    match s.handles[k]? with
    | Option.none => some s
    | some h =>
      match h.pRef with
      | Option.none => some s
      | some idx =>
        match stateFree s.pool h.client idx with
        | Option.none => Option.none
        | some pool' =>
          some { pool := pool', handles := s.handles.set k ⟨h.client, Option.none⟩ }

/-- Execute a sequence of operations, stopping at the first panic. -/
def exec (qos : Qos) (ops : List PoolOp) (s : TraceState) : Option TraceState :=
  match ops with
  | [] => some s
  | op :: rest =>
    match execOp qos s op with
    | Option.none => Option.none
    | some s' => exec qos rest s'

/-- `PacketPool::new`: all `N` buffers free, all `CLIENTS` usage counters
zero, no handles. -/
def initState (N CLIENTS : Nat) : TraceState :=
  { pool := { frees := List.replicate N true, usage := List.replicate CLIENTS 0 },
    handles := [] }

/-- Number of live (undropped) handles. -/
def liveCount (hs : List LivePacket) : Nat :=
  (hs.filter (fun h => h.pRef.isSome)).length

/-- The spec's formula for availability under `Guaranteed(k)`: reserved sums
`k` for every client holding fewer than `k` buffers, minus the asking
client's shortfall `k - usage[id]`; available is
`max(0, N - reserved - Σ usage)`. -/
def availableGuaranteedSpec (N k : Nat) (usage : List Nat) (client : Nat) : Nat :=
  let reserved := k * (usage.filter (fun c => decide (c < k))).length
    - (if usage.getD client 0 < k then k - usage.getD client 0 else 0)
  N - (reserved + usage.sum)

/-- The usage-accounting invariant: the usage counters sum to the number of
live handles. -/
def UsageInv (s : TraceState) : Prop :=
  s.pool.usage.sum = liveCount s.handles

/-- Final state of the concrete trace used to witness the usage-accounting
theorem: two allocs, a drop, a repeated drop of the same handle, one more
alloc. -/
def c7TraceResult : TraceState :=
  { pool := { frees := List.replicate 8 true, usage := [1, 1, 0, 0] },
    handles := [⟨0, Option.none⟩, ⟨1, some 0⟩, ⟨0, some 0⟩] }

/-! ## Definitions: connection_manager.rs -/

/-- `ConnectionInfo` from connection_manager.rs, with exactly the declared
fields (`handle`, `status`, `role`, `peer_address`, `interval`, `latency`,
`timeout`; scalar field types abstracted to `Nat`).  The struct has no ATT
MTU field, although adapter.rs line 294 initializes `att_mtu: 23` on it. -/
structure ConnectionInfo where
  handle : Nat
  status : Nat
  role : Nat
  peer_address : Nat
  interval : Nat
  latency : Nat
  timeout : Nat
deriving DecidableEq, Repr

/-- `ConnectionState` from connection_manager.rs. -/
inductive ConnectionState where
  | disconnected
  | connecting (handle : Nat) (info : ConnectionInfo)
  | connected (handle : Nat) (info : ConnectionInfo)
deriving DecidableEq, Repr

/-- `ConnectionManager::connect(handle, info)`: set the first
`Disconnected` slot to `Connecting(handle, info)` (waking the acceptor);
`Err(())` when every slot is occupied. -/
def connManConnect (conns : List ConnectionState) (h : Nat) (info : ConnectionInfo) :
    Except Unit (List ConnectionState) :=
  match conns with
  | [] => Except.error ()
  | ConnectionState.disconnected :: rest =>
    Except.ok (ConnectionState.connecting h info :: rest)
  | s :: rest =>
    match connManConnect rest h info with
    | Except.ok rest' => Except.ok (s :: rest')
    | Except.error e => Except.error e

/-- `ConnectionManager::disconnect(h)`: every slot in `Connecting` or
`Connected` state whose handle equals `h` becomes `Disconnected`; always
returns `Ok`. -/
def connManDisconnect (conns : List ConnectionState) (h : Nat) : List ConnectionState :=
  conns.map (fun s =>
    match s with
    | ConnectionState.connecting h2 _ => if h2 = h then ConnectionState.disconnected else s
    | ConnectionState.connected h2 _ => if h2 = h then ConnectionState.disconnected else s
    | ConnectionState.disconnected => s)

/-- `ConnectionManager::poll_accept`: the first `Connecting` slot is moved
to `Connected` and its handle returned (`Poll::Ready`); if none exists, the
waker is registered and the result is `Pending` (`Option.none`) with the
table untouched. -/
def pollAccept (conns : List ConnectionState) : Option Nat × List ConnectionState :=
  match conns with
  | [] => (Option.none, [])
  | ConnectionState.connecting h info :: rest =>
    (some h, ConnectionState.connected h info :: rest)
  | s :: rest =>
    let r := pollAccept rest
    (r.1, s :: r.2)

/-- One `ConnectionManager` operation. -/
inductive ConnOp where
  | connect (h : Nat) (info : ConnectionInfo)
  | accept
  | disconnect (h : Nat)
deriving DecidableEq, Repr

/-- Apply one operation to the connection table (a failed `connect` leaves
the table unchanged; `accept` is one `poll_accept` call). -/
def connStep (conns : List ConnectionState) : ConnOp → List ConnectionState
  | ConnOp.connect h info =>
    match connManConnect conns h info with
    | Except.ok conns' => conns'
    | Except.error _ => conns
  | ConnOp.accept => (pollAccept conns).2
  | ConnOp.disconnect h => connManDisconnect conns h

/-- Apply a sequence of operations to the connection table. -/
def connExec (conns : List ConnectionState) (ops : List ConnOp) : List ConnectionState :=
  ops.foldl connStep conns

/-- Slot occupancy test: is this slot non-`Disconnected` with handle `h`? -/
def isActiveFor (h : Nat) (s : ConnectionState) : Bool :=
  match s with
  | ConnectionState.connecting h2 _ => h2 == h
  | ConnectionState.connected h2 _ => h2 == h
  | ConnectionState.disconnected => false

/-- Number of slots holding handle `h` in a non-`Disconnected` state. -/
def activeFor (conns : List ConnectionState) (h : Nat) : Nat :=
  (conns.filter (isActiveFor h)).length

/-- `ConnectionManager::new()`: `CONNS` disconnected slots. -/
def initConns (n : Nat) : List ConnectionState :=
  List.replicate n ConnectionState.disconnected

/-- The discipline under which the event loop drives `connect`: a handle is
only connected while it is not already active (the controller reports each
handle once until `DisconnectionComplete`). -/
def connDiscipline (conns : List ConnectionState) : List ConnOp → Bool
  | [] => true
  | op :: rest =>
    (match op with
     | ConnOp.connect h _ => activeFor conns h == 0
     | _ => true) && connDiscipline (connStep conns op) rest

/-- An all-zero `ConnectionInfo` for concrete tests. -/
def info0 : ConnectionInfo := ⟨0, 0, 0, 0, 0, 0, 0⟩

/-! ## Definitions: adapter.rs (event loop) and l2cap demux -/

/-- Modelled from the spec: fixed L2CAP channel ids (`l2cap.rs` is not part
of the sources; §6 of the spec fixes `0x0004` ATT, `0x0005` LE U
signalling, dynamic channels from `0x0040`). -/
def L2CAP_CID_ATT : Nat := 0x0004

/-- Modelled from the spec: LE U signalling channel id. -/
def L2CAP_CID_LE_U_SIGNAL : Nat := 0x0005

/-- Modelled from the spec: first dynamic channel id. -/
def L2CAP_CID_DYN_START : Nat := 0x0040

/-- Where `Adapter::handle_acl` routed an inbound ACL payload. -/
inductive AclRoute where
  | attQueue (conn : Nat) (payload : List Nat)
  | attDropped
  | signalControl
  | dynamicChannel
deriving DecidableEq, Repr

/-- Result of one `Adapter::handle_acl` call. -/
inductive HandleOutcome where
  | routed (r : AclRoute)
  | errReturned
  | panicked
deriving DecidableEq, Repr

/-- `Adapter::handle_acl` (adapter.rs lines 186-229).  `decoded` stands for
`L2capPacket::decode(acl)` (l2cap.rs is not in the sources): `(conn,
channel, payload)` on success.  `allocResult` stands for
`self.pool.alloc(ATT_ID)`, `signalDecode` for the `L2capLeSignal` read,
`controlResult` for `self.channels.control(..)` and `dispatchResult` for
`self.channels.dispatch(..)` (the channel manager is not in the sources).
The ATT arm copies the payload into the fresh MTU-byte packet
(`copy_from_slice` panics when the payload exceeds `mtu`); the final arm of
the CID match is `unimplemented!()`, a panic. -/
def handleAcl (mtu : Nat) (allocResult : Option Unit)
    (signalDecode controlResult dispatchResult : Except Unit Unit)
    (decoded : Except Unit (Nat × Nat × List Nat)) : HandleOutcome :=
  match decoded with
  | Except.error _ => HandleOutcome.errReturned
  | Except.ok (conn, channel, payload) =>
    if channel = L2CAP_CID_ATT then
      match allocResult with
      | some _ =>
        if payload.length ≤ mtu then HandleOutcome.routed (AclRoute.attQueue conn payload)
        else HandleOutcome.panicked
      | Option.none => HandleOutcome.routed AclRoute.attDropped
    else if channel = L2CAP_CID_LE_U_SIGNAL then
      match signalDecode with
      | Except.error _ => HandleOutcome.errReturned
      | Except.ok _ =>
        match controlResult with
        | Except.ok _ => HandleOutcome.routed AclRoute.signalControl
        | Except.error _ => HandleOutcome.errReturned
    else if L2CAP_CID_DYN_START ≤ channel then
      match dispatchResult with
      | Except.ok _ => HandleOutcome.routed AclRoute.dynamicChannel
      | Except.error _ => HandleOutcome.routed AclRoute.dynamicChannel
    else HandleOutcome.panicked

/-- What one iteration of `Adapter::run`'s loop does after servicing its
selected source. -/
inductive LoopOutcome where
  | nextIteration
  | panicked
  | returnedErr
deriving DecidableEq, Repr

/-- The read branch's kind classification (`PacketKind`). -/
inductive PacketKindR where
  | aclData
  | event
  | other
deriving DecidableEq, Repr

/-- `embassy_futures::select::Either4`. -/
inductive Either4 (α β γ δ : Type) where
  | first (a : α)
  | second (b : β)
  | third (c : γ)
  | fourth (d : δ)

/-- How `run` treats the result of `handle_acl` (adapter.rs lines 272-277):
`Ok` and `Err` are both followed by the next iteration (`Err` is logged);
a panic propagates. -/
def aclBranch : HandleOutcome → LoopOutcome
  | HandleOutcome.panicked => LoopOutcome.panicked
  | _ => LoopOutcome.nextIteration

/-- One iteration of the `select4` loop in `Adapter::run` (adapter.rs lines
249-423).  The four sources: driver read (its `Result`), outbound ACL write
(the driver write `Result`), control command, outbound signalling write
(the driver write `Result`).  `aclOutcome`, `eventOutcome` and
`controlOutcome` abstract the bodies of those branches (HCI parsing,
event dispatch, command execution).  A driver read error is logged and the
loop continues (lines 331-333); a driver write error logs a warning and
then panics (lines 355-358 and 417-420). -/
def runIteration (aclOutcome eventOutcome controlOutcome : LoopOutcome)
    (sel : Either4 (Except Unit PacketKindR) (Except Unit Unit) Unit (Except Unit Unit)) :
    LoopOutcome :=
  match sel with
  | Either4.first r =>
    match r with
    | Except.ok PacketKindR.aclData => aclOutcome
    | Except.ok PacketKindR.event => eventOutcome
    | Except.ok PacketKindR.other => LoopOutcome.nextIteration
    | Except.error _ => LoopOutcome.nextIteration
  | Either4.second w =>
    match w with
    | Except.ok _ => LoopOutcome.nextIteration
    | Except.error _ => LoopOutcome.panicked
  | Either4.third _ => controlOutcome
  | Either4.fourth w =>
    match w with
    | Except.ok _ => LoopOutcome.nextIteration
    | Except.error _ => LoopOutcome.panicked

/-! ## Definitions: gatt.rs (ATT MTU exchange) -/

/-- Modelled from the spec: initial ATT MTU value 23. -/
def ATT_DEFAULT_MTU : Nat := 23

/-- Modelled from the spec: per-connection ATT MTU store, "defaults to 23
if unknown" (`DynamicConnectionManager` and its MTU storage are not in the
sources). -/
def initialAttMtu : Nat → Nat := fun _ => ATT_DEFAULT_MTU

/-- Modelled from the spec: `exchange_att_mtu(handle, peer_mtu)` updates
that connection's MTU to `min(peer_mtu, local_max)` and returns the
negotiated value. -/
def exchangeAttMtu (store : Nat → Nat) (h peerMtu localMax : Nat) : Nat × (Nat → Nat) :=
  let negotiated := min peerMtu localMax
  (negotiated, fun g => if g = h then negotiated else store g)

/-- Little-endian serialization of a `u16` (`WriteCursor::write`). -/
def le16 (v : Nat) : List Nat := [v % 256, v / 256 % 256]

/-- Modelled from the spec: ATT ExchangeMtu response opcode `0x03`
(att.rs is not in the sources). -/
def ATT_EXCHANGE_MTU_RESPONSE_OPCODE : Nat := 0x03

/-- The `Att::ExchangeMtu` arm of `GattServer::next` (gatt.rs lines 41-53):
negotiate via `exchange_att_mtu`, write the response opcode and the
negotiated MTU into the data part, write `data.len()` and the CID `4` into
the 4-byte header, and send `(handle, frame, header.len() + data.len())` on
the outbound queue.  Returns the updated MTU store and the queued item. -/
def gattExchangeMtuResponse (store : Nat → Nat) (localMax handle peerMtu : Nat) :
    (Nat → Nat) × (Nat × List Nat × Nat) :=
  let r := exchangeAttMtu store handle peerMtu localMax
  let data := [ATT_EXCHANGE_MTU_RESPONSE_OPCODE] ++ le16 r.1
  let header := le16 data.length ++ le16 4
  (r.2, (handle, header ++ data, header.length + data.length))

/-! ## Theorems: packet pool -/

/-- Setting a list entry replaces its contribution to the sum. -/
theorem sum_set_of_get (l : List Nat) : ∀ (i u v : Nat), l[i]? = some u →
    (l.set i v).sum + u = l.sum + v := by
  induction l with
  | nil => intro i u v h; simp at h
  | cons a t ih =>
    intro i u v h
    cases i with
    | zero =>
      rw [List.getElem?_cons_zero] at h
      injection h with h
      subst h
      simp [List.set]
      omega
    | succ j =>
      rw [List.getElem?_cons_succ] at h
      have := ih j u v h
      simp [List.set]
      omega

/-- Setting a list entry replaces its contribution to a filter's length. -/
theorem length_filter_set {α : Type} (p : α → Bool) (l : List α) :
    ∀ (k : Nat) (a b : α), l[k]? = some a →
    ((l.set k b).filter p).length + (if p a then 1 else 0)
      = (l.filter p).length + (if p b then 1 else 0) := by
  induction l with
  | nil => intro k a b h; simp at h
  | cons x t ih =>
    intro k a b h
    cases k with
    | zero =>
      rw [List.getElem?_cons_zero] at h
      injection h with h
      subst h
      simp only [List.set_cons_zero]
      cases hpx : p x <;> cases hpb : p b <;>
        simp [List.filter_cons, hpx, hpb]
    | succ j =>
      rw [List.getElem?_cons_succ] at h
      have := ih j a b h
      simp only [List.set_cons_succ]
      cases hpx : p x <;> simp [List.filter_cons, hpx] <;> omega

/-- A successful `PacketPool::alloc` went through `State::alloc`. -/
theorem poolAlloc_some_some {qos : Qos} {s : PoolState} {id : Nat}
    {r : Nat × PoolState} (h : poolAlloc qos s id = some (some r)) :
    stateAlloc s id = some (some r) := by
  unfold poolAlloc at h
  cases hav : stateAvailable s.frees.length qos s.usage id with
  | none => rw [hav] at h; simp at h
  | some avail =>
    rw [hav] at h
    by_cases hz : avail = 0
    · simp [hz] at h
    · simpa [hz] using h

/-- Shape of a successful `State::alloc`: the usage entry exists and is
bumped, the chosen buffer's flag is (re)written `true`. -/
theorem stateAlloc_some_some {s : PoolState} {id : Nat} {idx : Nat} {pool' : PoolState}
    (h : stateAlloc s id = some (some (idx, pool'))) :
    ∃ u, s.usage[id]? = some u ∧
      pool' = { frees := s.frees.set idx true, usage := s.usage.set id (u + 1) } := by
  unfold stateAlloc at h
  cases hf : allocFind s.frees 0 with
  | none => rw [hf] at h; simp at h
  | some i =>
    rw [hf] at h
    cases hu : s.usage[id]? with
    | none => rw [hu] at h; simp at h
    | some u =>
      simp only [hu, Option.some.injEq, Prod.mk.injEq] at h
      obtain ⟨h1, h2⟩ := h
      subst h1
      exact ⟨u, rfl, h2.symm⟩

/-- Shape of a successful `State::free`: the usage entry exists, is nonzero
and is decremented. -/
theorem stateFree_some {s : PoolState} {id idx : Nat} {p' : PoolState}
    (h : stateFree s id idx = some p') :
    ∃ u, s.usage[id]? = some u ∧ u ≠ 0 ∧
      p' = { frees := s.frees.set idx true, usage := s.usage.set id (u - 1) } := by
  unfold stateFree at h
  by_cases hidx : idx < s.frees.length
  · rw [if_pos hidx] at h
    cases hu : s.usage[id]? with
    | none => simp [hu] at h
    | some u =>
      by_cases hz : u = 0
      · simp [hu, hz] at h
      · simp only [hu, if_neg hz, Option.some.injEq] at h
        exact ⟨u, rfl, hz, h.symm⟩
  · rw [if_neg hidx] at h
    simp at h

/-- Every single operation that completes without a panic preserves the
usage-accounting invariant. -/
theorem execOp_preserves_usageInv {qos : Qos} {s s' : TraceState} {op : PoolOp}
    (hinv : UsageInv s) (h : execOp qos s op = some s') : UsageInv s' := by
  cases op with
  | alloc id =>
    simp only [execOp] at h
    cases hpa : poolAlloc qos s.pool id with
    | none => rw [hpa] at h; simp at h
    | some o =>
      rw [hpa] at h
      cases o with
      | none => simp at h; rwa [← h]
      | some r =>
        obtain ⟨idx, pool'⟩ := r
        simp only [Option.some.injEq] at h
        obtain ⟨u, hu, hpool⟩ := stateAlloc_some_some (poolAlloc_some_some hpa)
        have hsum := sum_set_of_get s.pool.usage id u (u + 1) hu
        unfold UsageInv at hinv ⊢
        rw [← h]
        rw [hpool]
        simp only [liveCount, List.filter_append]
        simp [liveCount] at hinv ⊢
        omega
  | drop k =>
    simp only [execOp] at h
    cases hg : s.handles[k]? with
    | none => simp only [hg] at h; simp at h; rwa [← h]
    | some hd =>
      simp only [hg] at h
      cases hp : hd.pRef with
      | none => simp only [hp] at h; simp at h; rwa [← h]
      | some idx =>
        simp only [hp] at h
        cases hf : stateFree s.pool hd.client idx with
        | none => simp only [hf] at h; simp at h
        | some pool' =>
          simp only [hf, Option.some.injEq] at h
          obtain ⟨u, hu, hz, hpool⟩ := stateFree_some hf
          have hsum := sum_set_of_get s.pool.usage hd.client u (u - 1) hu
          have hfil := length_filter_set (fun x => x.pRef.isSome) s.handles k hd
            ⟨hd.client, Option.none⟩ hg
          unfold UsageInv at hinv ⊢
          rw [← h]
          rw [hpool]
          simp only [liveCount] at hinv ⊢
          simp [hp] at hfil
          omega

/-- Executing any panic-free sequence of operations preserves the
usage-accounting invariant. -/
theorem exec_preserves_usageInv {qos : Qos} :
    ∀ (ops : List PoolOp) (s s' : TraceState), UsageInv s →
      exec qos ops s = some s' → UsageInv s' := by
  intro ops
  induction ops with
  | nil => intro s s' hinv h; simp only [exec] at h; simp at h; rwa [← h]
  | cons op rest ih =>
    intro s s' hinv h
    simp only [exec] at h
    cases hop : execOp qos s op with
    | none => rw [hop] at h; simp at h
    | some s1 =>
      rw [hop] at h
      exact ih s1 s' (execOp_preserves_usageInv hinv hop) h

/-- C7: after any panic-free interleaving of `PacketPool::alloc` calls and
`Packet` drops from a fresh pool, the usage counters sum to the number of
live `Packet` handles (each counter is a `Nat`, hence non-negative), and a
handle whose `p_ref` was already taken is dropped as a no-op — the buffer
is released exactly once. -/
theorem c7_usage_accounting (qos : Qos) (N CLIENTS : Nat) (ops : List PoolOp)
    (s : TraceState) (h : exec qos ops (initState N CLIENTS) = some s) :
    s.pool.usage.sum = liveCount s.handles ∧
    ∀ k hd, s.handles[k]? = some hd → hd.pRef = Option.none →
      execOp qos s (PoolOp.drop k) = some s := by
  constructor
  · have hinit : UsageInv (initState N CLIENTS) := by
      unfold UsageInv initState liveCount
      simp
    exact exec_preserves_usageInv ops _ s hinit h
  · intro k hd hget hnone
    simp [execOp, hget, hnone]

/-- C7 witness: a concrete five-operation trace (two allocs, a drop, a
repeated drop of the same handle, another alloc) reaches `c7TraceResult`
and satisfies the accounting conclusion. -/
theorem c7_usage_accounting_witness :
    c7TraceResult.pool.usage.sum = liveCount c7TraceResult.handles :=
  (c7_usage_accounting Qos.none 8 4
    [PoolOp.alloc 0, PoolOp.alloc 1, PoolOp.drop 0, PoolOp.drop 0, PoolOp.alloc 0]
    c7TraceResult (by decide)).1

/-- C1: two back-to-back `alloc` calls on a fresh `Pool(Qos::None, 1, 8, 4)`
both hand out buffer index 0 and both handles stay live: `State::alloc`
writes `packet.free = true` instead of `false`, so no buffer is ever marked
in use.  All eight `free` flags are still set afterwards. -/
theorem c1_double_alloc_same_buffer :
    exec Qos.none [PoolOp.alloc 0, PoolOp.alloc 0] (initState 8 4) =
      some { pool := { frees := List.replicate 8 true, usage := [2, 0, 0, 0] },
             handles := [⟨0, some 0⟩, ⟨0, some 0⟩] } := by
  decide

/-- C3: under `Guaranteed(2)` with `N = 8`, `CLIENTS = 4`, letting each
client allocate one buffer reaches `usage = [1,1,1,1]`; the next
`PacketPool::alloc` call panics inside `State::available` because
`reserved - shortfall` underflows (`reserved = 2 * #{usage == 0} = 0`,
shortfall `= 1`). -/
theorem c3_available_panics_on_reachable_state :
    exec (Qos.guaranteed 2) [PoolOp.alloc 0, PoolOp.alloc 1, PoolOp.alloc 2, PoolOp.alloc 3]
        (initState 8 4) =
      some { pool := { frees := List.replicate 8 true, usage := [1, 1, 1, 1] },
             handles := [⟨0, some 0⟩, ⟨1, some 0⟩, ⟨2, some 0⟩, ⟨3, some 0⟩] } ∧
    stateAvailable 8 (Qos.guaranteed 2) [1, 1, 1, 1] 0 = Option.none ∧
    exec (Qos.guaranteed 2)
        [PoolOp.alloc 0, PoolOp.alloc 1, PoolOp.alloc 2, PoolOp.alloc 3, PoolOp.alloc 0]
        (initState 8 4) = Option.none := by
  refine ⟨by decide, by decide, by decide⟩

/-- C4: at the reachable state `usage = [1,0,0,0]` under `Guaranteed(2)`
with `N = 8`, the code's `available` (which reserves `k` only for clients
with `usage == 0`) answers 3 for client 1, while the spec's formula (which
reserves `k` for every client with `usage < k`) gives 1. -/
theorem c4_guaranteed_differs_from_spec_formula :
    exec (Qos.guaranteed 2) [PoolOp.alloc 0] (initState 8 4) =
      some { pool := { frees := List.replicate 8 true, usage := [1, 0, 0, 0] },
             handles := [⟨0, some 0⟩] } ∧
    stateAvailable 8 (Qos.guaranteed 2) [1, 0, 0, 0] 1 = some 3 ∧
    availableGuaranteedSpec 8 2 [1, 0, 0, 0] 1 = 1 := by
  refine ⟨by decide, by decide, by decide⟩

/-- C10 counterexample: with `CLIENTS = 4` and the out-of-range id
`4 = AllocId::dynamic(2)`, under `Qos::None` on a full pool `available`
returns `0` without touching the usage array, and `PacketPool::alloc`
returns `None` without a panic — the claim says both panic. -/
theorem c10_counterexample_qos_none_no_panic :
    allocIdDynamic 2 = 4 ∧
    stateAvailable 8 Qos.none [2, 2, 2, 2] 4 = some 0 ∧
    poolAlloc Qos.none ⟨List.replicate 8 true, [2, 2, 2, 2]⟩ 4 = some Option.none := by
  refine ⟨rfl, by decide, by decide⟩

/-- C10 (amended): for any id at or past the end of the usage array,
`State::available` panics under `Fair` and `Guaranteed(k)` (out-of-bounds
index), but under `None` it returns `N - Σ usage` without indexing; in the
`None` case `PacketPool::alloc` panics (`usage[id] += 1` out of bounds)
exactly when availability is nonzero and a free buffer exists, and
`AllocId::dynamic` adds 2 with no bound check. -/
theorem c10_out_of_range_id (N : Nat) (usage : List Nat) (client : Nat)
    (hc : usage.length ≤ client) :
    stateAvailable N Qos.fair usage client = Option.none ∧
    (∀ k, stateAvailable N (Qos.guaranteed k) usage client = Option.none) ∧
    stateAvailable N Qos.none usage client = some (N - usage.sum) ∧
    (∀ (frees : List Bool) (idx : Nat), allocFind frees 0 = some idx →
      frees.length - usage.sum ≠ 0 →
      poolAlloc Qos.none ⟨frees, usage⟩ client = Option.none) ∧
    (∀ i, allocIdDynamic i = 2 + i) := by
  have hnone : usage[client]? = Option.none := List.getElem?_eq_none hc
  refine ⟨?_, ?_, rfl, ?_, fun i => rfl⟩
  · simp [stateAvailable, hnone]
  · intro k; simp [stateAvailable, hnone]
  · intro frees idx hfind hav
    simp only [poolAlloc, stateAvailable]
    rw [if_neg hav]
    simp [stateAlloc, hfind, hnone]

/-- C10 witness: `Fair` availability panics for id 5 with four clients. -/
theorem c10_out_of_range_id_witness :
    stateAvailable 8 Qos.fair [0, 0, 0, 0] 5 = Option.none :=
  (c10_out_of_range_id 8 [0, 0, 0, 0] 5 (by decide)).1

/-! ## Theorems: connection manager -/

/-- A successful `connect` adds exactly one active slot for the new handle
and leaves every other handle's count unchanged. -/
theorem activeFor_connManConnect {conns : List ConnectionState} {h : Nat}
    {info : ConnectionInfo} :
    ∀ {conns' : List ConnectionState}, connManConnect conns h info = Except.ok conns' →
    ∀ g, activeFor conns' g = activeFor conns g + (if h = g then 1 else 0) := by
  induction conns with
  | nil => intro conns' hc g; simp [connManConnect] at hc
  | cons a rest ih =>
    intro conns' hc g
    cases a with
    | disconnected =>
      simp only [connManConnect, Except.ok.injEq] at hc
      subst hc
      by_cases hg : h = g <;>
        simp [activeFor, List.filter_cons, isActiveFor, hg]
    | connecting h2 i2 =>
      simp only [connManConnect] at hc
      cases hr : connManConnect rest h info with
      | error e => rw [hr] at hc; simp at hc
      | ok rest' =>
        rw [hr] at hc
        simp only [Except.ok.injEq] at hc
        subst hc
        have := ih hr g
        by_cases hg : h2 = g <;>
          simp [activeFor, List.filter_cons, isActiveFor, hg] at this ⊢ <;> omega
    | connected h2 i2 =>
      simp only [connManConnect] at hc
      cases hr : connManConnect rest h info with
      | error e => rw [hr] at hc; simp at hc
      | ok rest' =>
        rw [hr] at hc
        simp only [Except.ok.injEq] at hc
        subst hc
        have := ih hr g
        by_cases hg : h2 = g <;>
          simp [activeFor, List.filter_cons, isActiveFor, hg] at this ⊢ <;> omega

/-- `poll_accept` never changes any handle's active-slot count: it only
turns a `Connecting` slot into `Connected` for the same handle. -/
theorem activeFor_pollAccept (g : Nat) :
    ∀ conns : List ConnectionState, activeFor (pollAccept conns).2 g = activeFor conns g := by
  intro conns
  induction conns with
  | nil => rfl
  | cons a rest ih =>
    cases a with
    | disconnected => simpa [pollAccept, activeFor, List.filter_cons, isActiveFor] using ih
    | connecting h2 i2 =>
      by_cases hg : h2 = g <;> simp [pollAccept, activeFor, List.filter_cons, isActiveFor, hg]
    | connected h2 i2 =>
      by_cases hg : h2 == g <;>
        simpa [pollAccept, activeFor, List.filter_cons, isActiveFor, hg] using ih

/-- `disconnect` never increases any handle's active-slot count. -/
theorem activeFor_connManDisconnect_le (h g : Nat) (conns : List ConnectionState) :
    activeFor (connManDisconnect conns h) g ≤ activeFor conns g := by
  unfold activeFor connManDisconnect
  rw [← List.countP_eq_length_filter, ← List.countP_eq_length_filter, List.countP_map]
  apply List.countP_mono_left
  intro s _ hs
  simp only [Function.comp] at hs
  cases s with
  | disconnected => simp [isActiveFor] at hs
  | connecting h2 i2 =>
    by_cases hh : h2 = h
    · rw [hh] at hs; simp [isActiveFor] at hs
    · simpa [hh] using hs
  | connected h2 i2 =>
    by_cases hh : h2 = h
    · rw [hh] at hs; simp [isActiveFor] at hs
    · simpa [hh] using hs

/-- Under the connect discipline, executing any operation sequence keeps
every handle's active-slot count at most one. -/
theorem connExec_active_le_one :
    ∀ (ops : List ConnOp) (conns : List ConnectionState),
      (∀ g, activeFor conns g ≤ 1) → connDiscipline conns ops = true →
      ∀ h, activeFor (connExec conns ops) h ≤ 1 := by
  intro ops
  induction ops with
  | nil => intro conns hinv _ h; exact hinv h
  | cons op rest ih =>
    intro conns hinv hd h
    simp only [connDiscipline, Bool.and_eq_true] at hd
    obtain ⟨hguard, hrest⟩ := hd
    have hstep : ∀ g, activeFor (connStep conns op) g ≤ 1 := by
      intro g
      cases op with
      | connect h2 info =>
        simp only [connStep]
        cases hc : connManConnect conns h2 info with
        | error e => exact hinv g
        | ok conns' =>
          have heff := activeFor_connManConnect hc g
          have hzero : activeFor conns h2 = 0 := by
            simp at hguard
            exact hguard
          by_cases hg : h2 = g
          · rw [heff, if_pos hg, ← hg, hzero]
          · rw [heff, if_neg hg]
            have := hinv g
            omega
      | accept =>
        simp only [connStep]
        rw [activeFor_pollAccept]
        exact hinv g
      | disconnect h2 =>
        simp only [connStep]
        exact le_trans (activeFor_connManDisconnect_le h2 g conns) (hinv g)
    have : connExec conns (op :: rest) = connExec (connStep conns op) rest := rfl
    rw [this]
    exact ih (connStep conns op) hstep hrest h

/-- A fresh table has no active slot for any handle. -/
theorem activeFor_initConns (n g : Nat) : activeFor (initConns n) g = 0 := by
  induction n with
  | zero => rfl
  | succ m ih =>
    simp only [initConns, List.replicate_succ] at ih ⊢
    simp [activeFor, List.filter_cons, isActiveFor] at ih ⊢
    try exact ih

/-- C6 counterexample: with two free slots, calling `connect(1, ..)` twice
leaves two slots in `Connecting(1, ..)` — `ConnectionManager::connect` does
not check whether the handle is already active, so the claim fails for this
operation sequence. -/
theorem c6_counterexample_double_connect :
    ¬ activeFor
        (connExec [ConnectionState.disconnected, ConnectionState.disconnected]
          [ConnOp.connect 1 info0, ConnOp.connect 1 info0]) 1 ≤ 1 := by
  decide

/-- C6 (amended): for every sequence of `connect`, `accept` and
`disconnect` operations from a fresh table in which `connect(h, ..)` is
only invoked while `h` is not already active (the event loop's usage: the
controller reports a handle once until it disconnects), at most one slot
holds a given handle in a non-`Disconnected` state at any time. -/
theorem c6_at_most_one_active_slot (n : Nat) (ops : List ConnOp) (h : Nat)
    (hd : connDiscipline (initConns n) ops = true) :
    activeFor (connExec (initConns n) ops) h ≤ 1 :=
  connExec_active_le_one ops (initConns n)
    (fun g => by rw [activeFor_initConns]; omega) hd h

/-- C6 witness: connect, accept, disconnect, reconnect of handle 1 on a
two-slot table respects the discipline and the bound. -/
theorem c6_at_most_one_active_slot_witness :
    activeFor
      (connExec (initConns 2)
        [ConnOp.connect 1 info0, ConnOp.accept, ConnOp.disconnect 1, ConnOp.connect 1 info0])
      1 ≤ 1 :=
  c6_at_most_one_active_slot 2
    [ConnOp.connect 1 info0, ConnOp.accept, ConnOp.disconnect 1, ConnOp.connect 1 info0]
    1 (by decide)

/-- C9: whenever `poll_accept` returns `Pending`, the connection table is
returned exactly as it was — no slot is consumed or modified, so dropping
(cancelling) an `accept()` future leaves the state intact. -/
theorem c9_poll_accept_pending_pure (conns conns' : List ConnectionState)
    (h : pollAccept conns = (Option.none, conns')) : conns' = conns := by
  induction conns generalizing conns' with
  | nil =>
    simp only [pollAccept, Prod.mk.injEq] at h
    exact h.2.symm
  | cons a rest ih =>
    cases a with
    | disconnected =>
      simp only [pollAccept, Prod.mk.injEq] at h
      obtain ⟨h1, h2⟩ := h
      have : pollAccept rest = (Option.none, (pollAccept rest).2) := by
        rw [← h1]
      rw [← h2, ih (pollAccept rest).2 this]
    | connecting h2 i2 =>
      simp only [pollAccept, Prod.mk.injEq] at h
      exact absurd h.1 (by simp)
    | connected h2 i2 =>
      simp only [pollAccept, Prod.mk.injEq] at h
      obtain ⟨h1, h2⟩ := h
      have : pollAccept rest = (Option.none, (pollAccept rest).2) := by
        rw [← h1]
      rw [← h2, ih (pollAccept rest).2 this]

/-- C9 witness: on a table with no `Connecting` slot, `poll_accept` is
`Pending` and returns the table unchanged. -/
theorem c9_poll_accept_pending_pure_witness :
    [ConnectionState.disconnected, ConnectionState.connected 1 info0] =
      [ConnectionState.disconnected, ConnectionState.connected 1 info0] :=
  c9_poll_accept_pending_pure
    [ConnectionState.disconnected, ConnectionState.connected 1 info0]
    [ConnectionState.disconnected, ConnectionState.connected 1 info0]
    (by decide)

/-! ## Theorems: event loop -/

/-- C2 counterexample: an inbound ACL packet whose L2CAP header carries CID
`0x0006` (neither `0x0004`, `0x0005`, nor a dynamic CID `>= 0x0040`) drives
`handle_acl` into the `unimplemented!()` arm — a panic, not a logged
error. -/
theorem c2_counterexample_cid6_panics :
    handleAcl 27 (some ()) (Except.ok ()) (Except.ok ()) (Except.ok ())
      (Except.ok (0, 6, [])) = HandleOutcome.panicked := by
  decide

/-- C2 (amended): an inbound ACL packet is routed by CID — `0x0004` to the
ATT inbound queue when a pool buffer is available (silently dropped
otherwise), `0x0005` to signalling control, any CID `>= 0x0040` to the
dynamic-channel dispatcher (whose errors are logged inline) — and decode or
signalling errors are returned and make the loop log and continue; but a
CID in `0x0000..=0x0003` or `0x0006..=0x003F` panics (`unimplemented!()`),
and the ATT copy assumes the payload fits the pool MTU. -/
theorem c2_acl_routing (mtu conn : Nat) (payload : List Nat)
    (allocResult : Option Unit) (sd cr dr : Except Unit Unit)
    (hlen : payload.length ≤ mtu) :
    handleAcl mtu (some ()) sd cr dr (Except.ok (conn, L2CAP_CID_ATT, payload))
      = HandleOutcome.routed (AclRoute.attQueue conn payload) ∧
    handleAcl mtu Option.none sd cr dr (Except.ok (conn, L2CAP_CID_ATT, payload))
      = HandleOutcome.routed AclRoute.attDropped ∧
    handleAcl mtu allocResult (Except.ok ()) (Except.ok ()) dr
        (Except.ok (conn, L2CAP_CID_LE_U_SIGNAL, payload))
      = HandleOutcome.routed AclRoute.signalControl ∧
    handleAcl mtu allocResult (Except.ok ()) (Except.error ()) dr
        (Except.ok (conn, L2CAP_CID_LE_U_SIGNAL, payload))
      = HandleOutcome.errReturned ∧
    handleAcl mtu allocResult (Except.error ()) cr dr
        (Except.ok (conn, L2CAP_CID_LE_U_SIGNAL, payload))
      = HandleOutcome.errReturned ∧
    (∀ ch, L2CAP_CID_DYN_START ≤ ch →
      handleAcl mtu allocResult sd cr dr (Except.ok (conn, ch, payload))
        = HandleOutcome.routed AclRoute.dynamicChannel) ∧
    handleAcl mtu allocResult sd cr dr (Except.error ()) = HandleOutcome.errReturned ∧
    (∀ ch, ch ≠ L2CAP_CID_ATT → ch ≠ L2CAP_CID_LE_U_SIGNAL → ch < L2CAP_CID_DYN_START →
      handleAcl mtu allocResult sd cr dr (Except.ok (conn, ch, payload))
        = HandleOutcome.panicked) ∧
    aclBranch HandleOutcome.errReturned = LoopOutcome.nextIteration := by
  refine ⟨?_, ?_, ?_, ?_, ?_, ?_, ?_, ?_, rfl⟩
  · simp [handleAcl, hlen]
  · simp [handleAcl]
  · cases dr <;> simp [handleAcl, L2CAP_CID_ATT, L2CAP_CID_LE_U_SIGNAL]
  · simp [handleAcl, L2CAP_CID_ATT, L2CAP_CID_LE_U_SIGNAL]
  · cases cr <;> simp [handleAcl, L2CAP_CID_ATT, L2CAP_CID_LE_U_SIGNAL]
  · intro ch hch
    have h4 : ch ≠ L2CAP_CID_ATT := by
      simp only [L2CAP_CID_DYN_START] at hch
      simp only [L2CAP_CID_ATT]
      omega
    have h5 : ch ≠ L2CAP_CID_LE_U_SIGNAL := by
      simp only [L2CAP_CID_DYN_START] at hch
      simp only [L2CAP_CID_LE_U_SIGNAL]
      omega
    cases dr <;> simp [handleAcl, h4, h5, hch]
  · simp [handleAcl]
  · intro ch h4 h5 hlt
    have hnd : ¬ L2CAP_CID_DYN_START ≤ ch := by omega
    simp [handleAcl, h4, h5, hnd]

/-- C2 witness: a three-byte payload on CID `0x0004` with pool space and a
27-byte MTU is queued for ATT. -/
theorem c2_acl_routing_witness :
    handleAcl 27 (some ()) (Except.ok ()) (Except.ok ()) (Except.ok ())
      (Except.ok (7, L2CAP_CID_ATT, [1, 2, 3]))
      = HandleOutcome.routed (AclRoute.attQueue 7 [1, 2, 3]) :=
  (c2_acl_routing 27 7 [1, 2, 3] (some ()) (Except.ok ()) (Except.ok ()) (Except.ok ())
    (by decide)).1

/-- C5 counterexample: a driver read error makes the loop continue (the
error is logged), and a driver write error makes it panic; neither outcome
is a return, contradicting the claim that `run()` exits with the error. -/
theorem c5_counterexample_io_error_not_returned :
    runIteration LoopOutcome.nextIteration LoopOutcome.nextIteration LoopOutcome.nextIteration
        (Either4.first (Except.error ())) = LoopOutcome.nextIteration ∧
    runIteration LoopOutcome.nextIteration LoopOutcome.nextIteration LoopOutcome.nextIteration
        (Either4.second (Except.error ())) = LoopOutcome.panicked ∧
    LoopOutcome.nextIteration ≠ LoopOutcome.returnedErr ∧
    LoopOutcome.panicked ≠ LoopOutcome.returnedErr := by
  refine ⟨rfl, rfl, by decide, by decide⟩

/-- C5 (amended): whatever the other branches do, a driver read I/O failure
is logged and the loop continues with the next iteration, while a driver
write I/O failure (outbound data or outbound signalling) panics; in neither
case does `run()` return the error to its caller. -/
theorem c5_transport_error_behavior (aclOutcome eventOutcome controlOutcome : LoopOutcome) :
    runIteration aclOutcome eventOutcome controlOutcome (Either4.first (Except.error ()))
      = LoopOutcome.nextIteration ∧
    runIteration aclOutcome eventOutcome controlOutcome (Either4.second (Except.error ()))
      = LoopOutcome.panicked ∧
    runIteration aclOutcome eventOutcome controlOutcome (Either4.fourth (Except.error ()))
      = LoopOutcome.panicked :=
  ⟨rfl, rfl, rfl⟩

/-! ## Theorems: GATT MTU exchange -/

/-- C8: for an ATT ExchangeMtu request with peer MTU `m`, the GATT server
negotiates `min(m, local_max)`, stores it as that connection's ATT MTU
(modelled per the spec; the store defaults to 23), and queues on the
outbound channel the frame `[len lo, len hi, cid lo, cid hi]` =
`[3, 0, 4, 0]` followed by the response opcode `0x03` and the negotiated
MTU little-endian, with total length 7. -/
theorem c8_exchange_mtu_response (store : Nat → Nat) (localMax handle peerMtu : Nat) :
    (gattExchangeMtuResponse store localMax handle peerMtu).2
      = (handle, [3, 0, 4, 0, ATT_EXCHANGE_MTU_RESPONSE_OPCODE] ++ le16 (min peerMtu localMax), 7) ∧
    (gattExchangeMtuResponse store localMax handle peerMtu).1 handle = min peerMtu localMax ∧
    initialAttMtu handle = 23 := by
  refine ⟨?_, ?_, rfl⟩
  · simp [gattExchangeMtuResponse, exchangeAttMtu, le16, ATT_EXCHANGE_MTU_RESPONSE_OPCODE]
  · simp [gattExchangeMtuResponse, exchangeAttMtu]

end Trouble
